import Mathlib

/-!
Shallow embedding of `oula-account-today-reward-monitor` (src/main.go).

The program parses command-line flags, fatally exits on an empty account
list or a failed database open/ping, then runs a ticker loop.  Each tick
builds a fresh Prometheus registry, queries the daily reward of every
configured account (logging and skipping failures), registers one gauge per
successful account (logging registration errors), and performs exactly one
push to the Pushgateway (logging push failures).  `queryDailyReward` sums
the `reward` column over today's (Asia/Shanghai) `epoch_distributor` rows
of project `ALEO` for the named account, scaled by `1e6`, with
`COALESCE(..., 0)` turning the empty aggregate into `0`.

Go `float64` reward values are modelled as `ℚ`; database and network
failures are modelled as `Except String` / `Option String` oracles supplied
per tick, since they are external to the program.
-/

set_option autoImplicit false

namespace RewardMonitor

/-! ### Command-line flags (src/main.go lines 17-25)

`flag.String` / `flag.Int` accept any provided value and substitute the
default when the flag is unspecified; `none` models an unspecified flag. -/

structure Flags where
  account : Option String
  interval : Option Int
  pushgateway : Option String
  job : Option String
  metrics : Option String
  instanceLabel : Option String
  dsn : Option String
  deriving Repr, DecidableEq

structure Config where
  account : String
  interval : Int
  pushgateway : String
  job : String
  metricsName : String
  instanceLabel : String
  dsn : String
  deriving Repr, DecidableEq

/-- Flag parsing: each flag takes its provided value verbatim, or the
default from src/main.go lines 17-23 when unspecified. -/
def parseFlags (f : Flags) : Config where
  account := f.account.getD ""
  interval := f.interval.getD 30
  pushgateway := f.pushgateway.getD "http://localhost:9091"
  job := f.job.getD ""
  metricsName := f.metrics.getD ""
  instanceLabel := f.instanceLabel.getD ""
  dsn := f.dsn.getD ""

/-! ### Database model and `queryDailyReward` (src/main.go lines 96-114) -/

structure MinerAccount where
  id : Int
  name : String
  deriving Repr, DecidableEq

structure EpochRow where
  project : String
  minerAccountId : Int
  /-- `epoch_time`, modelled as a Unix timestamp in seconds (UTC). -/
  epochTime : Int
  reward : ℚ
  deriving Repr, DecidableEq

structure DB where
  minerAccount : List MinerAccount
  epochDistributor : List EpochRow
  /-- `NOW()` of the database server at query time, Unix seconds. -/
  now : Int
  /-- A connectivity/query-execution failure of `QueryRow(...).Scan`. -/
  queryErr : Option String
  deriving Repr, DecidableEq

/-- `DATE(t AT TIME ZONE 'Asia/Shanghai')` for a Unix timestamp `t`:
Asia/Shanghai is a fixed UTC+8 offset, so the calendar day is the floor of
the shifted timestamp over 86400 seconds. -/
def shanghaiDate (t : Int) : Int :=
  (t + 8 * 3600).fdiv 86400

/-- The `WHERE` clause of the SQL statement at src/main.go lines 99-107:
project `ALEO`, `miner_account_id IN (SELECT id FROM miner_account WHERE
name = $1)`, and calendar-day equality with `NOW()` in Asia/Shanghai. -/
def rowMatches (db : DB) (account : String) (r : EpochRow) : Bool :=
  r.project == "ALEO"
    && db.minerAccount.any (fun ma => ma.name == account && ma.id == r.minerAccountId)
    && shanghaiDate r.epochTime == shanghaiDate db.now

/-- SQL `SUM`: `NULL` on the empty row set, the sum otherwise. -/
def sqlSum (l : List ℚ) : Option ℚ :=
  match l with
  | [] => none
  | _ => some l.sum

/-- `queryDailyReward` (src/main.go lines 96-114):
`SELECT COALESCE(SUM(reward)/1e6, 0) ...` for the given account; a failure
of the row scan is propagated to the caller. -/
def queryDailyReward (db : DB) (account : String) : Except String ℚ :=
  match db.queryErr with
  | some e => .error e
  | none =>
    let rows := db.epochDistributor.filter (rowMatches db account)
    .ok (((sqlSum (rows.map EpochRow.reward)).map (fun s => s / 1000000)).getD 0)

/-! ### Prometheus registry model

A gauge built at src/main.go lines 67-73 is one sample: the configured
metric name, the `account` const label, and the value set from the query.
`prometheus.Registry.Register` rejects a collector whose descriptor is
invalid (e.g. an invalid metric name) and rejects a duplicate registration
of the same identity (same fully-qualified name and const label set). -/

structure Sample where
  name : String
  account : String
  value : ℚ
  deriving Repr, DecidableEq

def mkSample (metricsName acc : String) (v : ℚ) : Sample :=
  { name := metricsName, account := acc, value := v }

/-- Prometheus metric-name validity: `^[a-zA-Z_:][a-zA-Z0-9_:]*$`. -/
def isValidMetricNameChar (c : Char) : Bool :=
  c.isAlpha || c == '_' || c == ':'

def isValidMetricName (s : String) : Bool :=
  match s.toList with
  | [] => false
  | c :: cs => isValidMetricNameChar c && cs.all (fun d => isValidMetricNameChar d || d.isDigit)

/-- Two collectors collide when fully-qualified name and const labels
coincide (the label value of the single `account` label). -/
def sameIdentity (s t : Sample) : Bool :=
  s.name == t.name && s.account == t.account

/-- `reg.Register(gauge)` (src/main.go line 76): an invalid descriptor or a
duplicate identity is an error; otherwise the collector is added. -/
def registerSample (reg : List Sample) (s : Sample) : Except String (List Sample) :=
  if isValidMetricName s.name = false then
    .error (s.name ++ " is not a valid metric name")
  else if reg.any (sameIdentity s) then
    .error "duplicate metrics collector registration attempted"
  else
    .ok (reg ++ [s])

/-! ### One tick of the loop (src/main.go lines 55-90) -/

/-- Observable side effects of one tick, in program order. -/
inductive Event where
  | queryEv (account : String)
  | logQueryError (account : String) (msg : String)
  | logRegisterError (msg : String)
  | pushEv (gateway : String) (job : String) (instanceLabel : String) (batch : List Sample)
  | logPushError (msg : String)
  | logPushSuccess
  deriving Repr, DecidableEq

def Event.isPush : Event → Bool
  | .pushEv _ _ _ _ => true
  | _ => false

def Event.isRegisterError : Event → Bool
  | .logRegisterError _ => true
  | _ => false

/-- Accounts queried, in order, as recorded in a trace. -/
def queryEvents : List Event → List String
  | [] => []
  | .queryEv a :: es => a :: queryEvents es
  | _ :: es => queryEvents es

/-- External inputs of one tick: the outcome of each account's database
query and the outcome of the push (`none` = push succeeded). -/
structure TickInput where
  oracle : String → Except String ℚ
  pushErr : Option String

/-- The per-account loop at src/main.go lines 59-79: query each account in
order; on query error log and continue; on success build the gauge and
register it, logging a registration error (the gauge is then dropped). -/
def processAccounts (m : String) (o : String → Except String ℚ) :
    List String → List Sample → List Sample × List Event
  | [], reg => (reg, [])
  | acc :: rest, reg =>
    match o acc with
    | .error e =>
      let r := processAccounts m o rest reg
      (r.1, .queryEv acc :: .logQueryError acc e :: r.2)
    | .ok v =>
      match registerSample reg (mkSample m acc v) with
      | .error e =>
        let r := processAccounts m o rest reg
        (r.1, .queryEv acc :: .logRegisterError e :: r.2)
      | .ok reg' =>
        let r := processAccounts m o rest reg'
        (r.1, .queryEv acc :: r.2)

/-- The registry contents pushed by a tick. -/
def tickBatch (cfg : Config) (accounts : List String) (inp : TickInput) : List Sample :=
  (processAccounts cfg.metricsName inp.oracle accounts []).1

/-- One full tick (src/main.go lines 55-90): a fresh registry, the
per-account loop, then exactly one push attempt whose failure or success is
logged. -/
def runTick (cfg : Config) (accounts : List String) (inp : TickInput) : List Event :=
  (processAccounts cfg.metricsName inp.oracle accounts []).2
    ++ [.pushEv cfg.pushgateway cfg.job cfg.instanceLabel (tickBatch cfg accounts inp)]
    ++ (match inp.pushErr with
        | some e => [.logPushError e]
        | none => [.logPushSuccess])

/-! ### Startup and the main loop (src/main.go lines 15-93) -/

/-- Go `strings.Split(s, sep)` for a one-character separator: split around
every occurrence of the separator, keeping empty substrings, with no
trimming and no deduplication. -/
def splitAux (sep : Char) : List Char → List Char → List String
  | [], cur => [String.mk cur.reverse]
  | c :: cs, cur =>
    if c = sep then String.mk cur.reverse :: splitAux sep cs []
    else splitAux sep cs (c :: cur)

def goSplit (s : String) (sep : Char) : List String :=
  splitAux sep s.toList []

/-- External startup conditions: whether `sql.Open` fails (lib/pq rejects a
malformed DSN there) and whether the initial `db.Ping` fails. -/
structure Env where
  openErr : Option String
  pingErr : Option String
  deriving Repr, DecidableEq

structure LoopState where
  cfg : Config
  accounts : List String
  deriving Repr, DecidableEq

inductive StartupOutcome where
  | fatal (msg : String)
  | panicked (msg : String)
  | loop (st : LoopState)
  deriving Repr, DecidableEq

def StartupOutcome.entersLoop : StartupOutcome → Bool
  | .loop _ => true
  | _ => false

def StartupOutcome.isPanic : StartupOutcome → Bool
  | .panicked _ => true
  | _ => false

def StartupOutcome.isFatal : StartupOutcome → Bool
  | .fatal _ => true
  | _ => false

/-- Signed 64-bit two's-complement wraparound: the value of an `int64`
whose true integer result is `x`. -/
def wrap64 (x : Int) : Int :=
  (x + 9223372036854775808) % 18446744073709551616 - 9223372036854775808

/-- The duration handed to `time.NewTicker` at src/main.go line 46:
`time.Duration(interval) * time.Second` multiplies in `int64`, so the
product `interval * 1e9` nanoseconds wraps around on overflow. -/
def tickerDuration (interval : Int) : Int :=
  wrap64 (interval * 1000000000)

/-- Startup (src/main.go lines 15-50): `log.Fatalf` on empty `--account`,
on an `sql.Open` error, or on a `db.Ping` error; then
`time.NewTicker(time.Duration(interval) * time.Second)` panics when the
(int64-wrapped) duration is non-positive; otherwise the loop is entered
with the comma-split account list. -/
def startup (f : Flags) (env : Env) : StartupOutcome :=
  let cfg := parseFlags f
  if cfg.account = "" then
    .fatal "No account provided. Use --account=acc1,acc2,..."
  else
    let accounts := goSplit cfg.account ','
    match env.openErr with
    | some e => .fatal ("Failed to open DB: " ++ e)
    | none =>
      match env.pingErr with
      | some e => .fatal ("DB ping error: " ++ e)
      | none =>
        if tickerDuration cfg.interval ≤ 0 then
          .panicked "non-positive interval for NewTicker"
        else
          .loop { cfg := cfg, accounts := accounts }

/-- The first `n` tick traces of the infinite loop at src/main.go lines
53-92.  Nothing in the loop body mutates the configuration or the account
list, so every tick runs on the same `LoopState`. -/
def runLoop (st : LoopState) (inputs : Nat → TickInput) : Nat → List (List Event)
  | 0 => []
  | n + 1 => runLoop st inputs n ++ [runTick st.cfg st.accounts (inputs n)]

/-! ### Helper lemmas -/

theorem isRegisterError_queryEv (a : String) : (Event.queryEv a).isRegisterError = false := rfl

theorem isRegisterError_logQueryError (a e : String) :
    (Event.logQueryError a e).isRegisterError = false := rfl

theorem isRegisterError_logRegisterError (e : String) :
    (Event.logRegisterError e).isRegisterError = true := rfl

theorem registerSample_ok_eq {reg : List Sample} {s : Sample} {reg' : List Sample}
    (h : registerSample reg s = .ok reg') : reg' = reg ++ [s] := by
  unfold registerSample at h
  split at h
  · exact absurd h (by simp)
  · split at h
    · exact absurd h (by simp)
    · exact (Except.ok.inj h).symm

theorem registerSample_ok_noConflict {reg : List Sample} {s : Sample} {reg' : List Sample}
    (h : registerSample reg s = .ok reg') : reg.any (sameIdentity s) = false := by
  unfold registerSample at h
  split at h
  · exact absurd h (by simp)
  · split at h
    · exact absurd h (by simp)
    · next _ hc => exact Bool.eq_false_iff.mpr (fun hb => hc (by simpa using hb))

theorem registerSample_conflict {reg : List Sample} {s : Sample}
    (hv : isValidMetricName s.name = true) (hc : reg.any (sameIdentity s) = true) :
    registerSample reg s = .error "duplicate metrics collector registration attempted" := by
  unfold registerSample
  rw [hv]
  simp [hc]

theorem registerSample_error_of_conflict {reg : List Sample} {s : Sample}
    (hv : isValidMetricName s.name = true)
    (h : ∃ e, registerSample reg s = .error e) : reg.any (sameIdentity s) = true := by
  obtain ⟨e, he⟩ := h
  unfold registerSample at he
  rw [hv] at he
  by_cases hc : reg.any (sameIdentity s) = true
  · exact hc
  · rw [Bool.eq_false_iff.mpr hc] at he
    simp at he

/-- Every sample in the registry after the per-account loop was either there
initially or stems from a successful query of a listed account, carrying
that query's value verbatim and the configured metric name. -/
theorem processAccounts_origin (m : String) (o : String → Except String ℚ) :
    ∀ (l : List String) (reg : List Sample) (s : Sample),
      s ∈ (processAccounts m o l reg).1 →
      s ∈ reg ∨ (s.account ∈ l ∧ o s.account = .ok s.value ∧ s.name = m)
  | [], _, _, hs => Or.inl hs
  | acc :: rest, reg, s, hs => by
    cases h : o acc with
    | error e =>
      simp only [processAccounts, h] at hs
      rcases processAccounts_origin m o rest reg s hs with h1 | ⟨h1, h2, h3⟩
      · exact Or.inl h1
      · exact Or.inr ⟨List.mem_cons_of_mem _ h1, h2, h3⟩
    | ok v =>
      cases h2 : registerSample reg (mkSample m acc v) with
      | error e =>
        simp only [processAccounts, h, h2] at hs
        rcases processAccounts_origin m o rest reg s hs with h1 | ⟨h1, h2, h3⟩
        · exact Or.inl h1
        · exact Or.inr ⟨List.mem_cons_of_mem _ h1, h2, h3⟩
      | ok reg' =>
        simp only [processAccounts, h, h2] at hs
        rcases processAccounts_origin m o rest reg' s hs with h1 | ⟨h1, h2', h3⟩
        · rw [registerSample_ok_eq h2] at h1
          rcases List.mem_append.mp h1 with h1 | h1
          · exact Or.inl h1
          · rcases List.mem_singleton.mp h1 with rfl
            exact Or.inr ⟨List.mem_cons_self _ _, by simpa [mkSample] using h, rfl⟩
        · exact Or.inr ⟨List.mem_cons_of_mem _ h1, h2', h3⟩

/-- The per-account loop never removes a registered sample. -/
theorem processAccounts_mono (m : String) (o : String → Except String ℚ) :
    ∀ (l : List String) (reg : List Sample) (t : Sample), t ∈ reg →
      t ∈ (processAccounts m o l reg).1
  | [], _, _, ht => ht
  | acc :: rest, reg, t, ht => by
    cases h : o acc with
    | error e =>
      simp only [processAccounts, h]
      exact processAccounts_mono m o rest reg t ht
    | ok v =>
      cases h2 : registerSample reg (mkSample m acc v) with
      | error e =>
        simp only [processAccounts, h, h2]
        exact processAccounts_mono m o rest reg t ht
      | ok reg' =>
        simp only [processAccounts, h, h2]
        refine processAccounts_mono m o rest reg' t ?_
        rw [registerSample_ok_eq h2]
        exact List.mem_append_left _ ht

/-- If the initial registry carries the configured metric name on every
sample and no duplicate `account` label, the per-account loop preserves
both: the duplicate-identity check of `Register` keeps account labels
pairwise distinct. -/
theorem processAccounts_nodup (m : String) (o : String → Except String ℚ) :
    ∀ (l : List String) (reg : List Sample),
      (∀ t ∈ reg, t.name = m) → (reg.map Sample.account).Nodup →
      (∀ t ∈ (processAccounts m o l reg).1, t.name = m) ∧
        ((processAccounts m o l reg).1.map Sample.account).Nodup
  | [], _, hn, hd => ⟨hn, hd⟩
  | acc :: rest, reg, hn, hd => by
    cases h : o acc with
    | error e =>
      simp only [processAccounts, h]
      exact processAccounts_nodup m o rest reg hn hd
    | ok v =>
      cases h2 : registerSample reg (mkSample m acc v) with
      | error e =>
        simp only [processAccounts, h, h2]
        exact processAccounts_nodup m o rest reg hn hd
      | ok reg' =>
        simp only [processAccounts, h, h2]
        refine processAccounts_nodup m o rest reg' ?_ ?_
        · rw [registerSample_ok_eq h2]
          intro t ht
          rcases List.mem_append.mp ht with ht | ht
          · exact hn t ht
          · rcases List.mem_singleton.mp ht with rfl
            rfl
        · rw [registerSample_ok_eq h2, List.map_append]
          refine List.Nodup.append hd (List.nodup_singleton _) ?_
          intro x hx hxs
          simp only [List.map_singleton, List.mem_singleton, mkSample] at hxs
          obtain ⟨t, ht, hta⟩ := List.mem_map.mp hx
          have hany : reg.any (sameIdentity (mkSample m acc v)) = true :=
            List.any_eq_true.mpr ⟨t, ht, by simp [sameIdentity, mkSample, hn t ht, hta, hxs]⟩
          rw [registerSample_ok_noConflict h2] at hany
          exact Bool.false_ne_true hany

/-- If the queried account succeeds and the metric name is valid, a sample
for that account ends up in the registry — either freshly registered, or
already present (its registration then being rejected as a duplicate). -/
theorem processAccounts_exists (m : String) (o : String → Except String ℚ)
    (acc : String) (hm : isValidMetricName m = true) :
    ∀ (l : List String) (reg : List Sample),
      (acc ∈ l ∧ ∃ v, o acc = .ok v) ∨ (∃ t ∈ reg, t.name = m ∧ t.account = acc) →
      ∃ t ∈ (processAccounts m o l reg).1, t.name = m ∧ t.account = acc
  | [], reg, hpre => by
    rcases hpre with ⟨hmem, _⟩ | ⟨t, ht, h1, h2⟩
    · exact absurd hmem (List.not_mem_nil acc)
    · exact ⟨t, ht, h1, h2⟩
  | b :: rest, reg, hpre => by
    cases h : o b with
    | error e =>
      simp only [processAccounts, h]
      refine processAccounts_exists m o acc hm rest reg ?_
      rcases hpre with ⟨hmem, v, hv⟩ | hr
      · rcases List.mem_cons.mp hmem with rfl | hmem
        · rw [hv] at h
          exact absurd h (by simp)
        · exact Or.inl ⟨hmem, v, hv⟩
      · exact Or.inr hr
    | ok v =>
      cases h2 : registerSample reg (mkSample m b v) with
      | error e =>
        simp only [processAccounts, h, h2]
        refine processAccounts_exists m o acc hm rest reg ?_
        rcases hpre with ⟨hmem, w, hw⟩ | hr
        · rcases List.mem_cons.mp hmem with rfl | hmem
          · have hc : reg.any (sameIdentity (mkSample m acc v)) = true :=
              registerSample_error_of_conflict hm ⟨e, h2⟩
            obtain ⟨t, ht, hst⟩ := List.any_eq_true.mp hc
            simp only [sameIdentity, mkSample, Bool.and_eq_true, beq_iff_eq] at hst
            exact Or.inr ⟨t, ht, hst.1.symm, hst.2.symm⟩
          · exact Or.inl ⟨hmem, w, hw⟩
        · exact Or.inr hr
      | ok reg' =>
        simp only [processAccounts, h, h2]
        refine processAccounts_exists m o acc hm rest reg' ?_
        rcases hpre with ⟨hmem, w, hw⟩ | ⟨t, ht, h1, h3⟩
        · rcases List.mem_cons.mp hmem with rfl | hmem
          · refine Or.inr ⟨mkSample m acc v, ?_, rfl, rfl⟩
            rw [registerSample_ok_eq h2]
            exact List.mem_append_right _ (List.mem_singleton_self _)
          · exact Or.inl ⟨hmem, w, hw⟩
        · refine Or.inr ⟨t, ?_, h1, h3⟩
          rw [registerSample_ok_eq h2]
          exact List.mem_append_left _ ht

theorem queryEvents_append (l₁ l₂ : List Event) :
    queryEvents (l₁ ++ l₂) = queryEvents l₁ ++ queryEvents l₂ := by
  induction l₁ with
  | nil => rfl
  | cons e es ih => cases e <;> simp [queryEvents, ih]

/-- The per-account loop queries each configured account exactly once, in
list order. -/
theorem processAccounts_queryEvents (m : String) (o : String → Except String ℚ) :
    ∀ (l : List String) (reg : List Sample),
      queryEvents (processAccounts m o l reg).2 = l
  | [], _ => rfl
  | acc :: rest, reg => by
    cases h : o acc with
    | error e =>
      simp only [processAccounts, h]
      simp [queryEvents, processAccounts_queryEvents m o rest reg]
    | ok v =>
      cases h2 : registerSample reg (mkSample m acc v) with
      | error e =>
        simp only [processAccounts, h, h2]
        simp [queryEvents, processAccounts_queryEvents m o rest reg]
      | ok reg' =>
        simp only [processAccounts, h, h2]
        simp [queryEvents, processAccounts_queryEvents m o rest reg']

/-- The per-account loop performs no push. -/
theorem processAccounts_no_push (m : String) (o : String → Except String ℚ) :
    ∀ (l : List String) (reg : List Sample),
      ∀ e ∈ (processAccounts m o l reg).2, e.isPush = false
  | [], _, _, he => absurd he (List.not_mem_nil _)
  | acc :: rest, reg, e, he => by
    cases h : o acc with
    | error e0 =>
      simp only [processAccounts, h] at he
      rcases List.mem_cons.mp he with rfl | he
      · rfl
      · rcases List.mem_cons.mp he with rfl | he
        · rfl
        · exact processAccounts_no_push m o rest reg e he
    | ok v =>
      cases h2 : registerSample reg (mkSample m acc v) with
      | error e0 =>
        simp only [processAccounts, h, h2] at he
        rcases List.mem_cons.mp he with rfl | he
        · rfl
        · rcases List.mem_cons.mp he with rfl | he
          · rfl
          · exact processAccounts_no_push m o rest reg e he
      | ok reg' =>
        simp only [processAccounts, h, h2] at he
        rcases List.mem_cons.mp he with rfl | he
        · rfl
        · exact processAccounts_no_push m o rest reg' e he

/-- A failing query of a listed account leaves its log line in the tick's
event trace. -/
theorem processAccounts_logQueryError (m : String) (o : String → Except String ℚ)
    (acc : String) (e : String) (he : o acc = .error e) :
    ∀ (l : List String) (reg : List Sample), acc ∈ l →
      Event.logQueryError acc e ∈ (processAccounts m o l reg).2
  | [], _, hmem => absurd hmem (List.not_mem_nil acc)
  | b :: rest, reg, hmem => by
    by_cases hb : b = acc
    · subst hb
      simp only [processAccounts, he]
      exact List.mem_cons_of_mem _ (List.mem_cons_self _ _)
    · have hmem' : acc ∈ rest := by
        rcases List.mem_cons.mp hmem with h | h
        · exact absurd h.symm hb
        · exact h
      cases h : o b with
      | error e0 =>
        simp only [processAccounts, h]
        exact List.mem_cons_of_mem _
          (List.mem_cons_of_mem _ (processAccounts_logQueryError m o acc e he rest reg hmem'))
      | ok v =>
        cases h2 : registerSample reg (mkSample m b v) with
        | error e0 =>
          simp only [processAccounts, h, h2]
          exact List.mem_cons_of_mem _
            (List.mem_cons_of_mem _ (processAccounts_logQueryError m o acc e he rest reg hmem'))
        | ok reg' =>
          simp only [processAccounts, h, h2]
          exact List.mem_cons_of_mem _ (processAccounts_logQueryError m o acc e he rest reg' hmem')

/-- Once the registry holds a sample whose identity matches account `a`,
every further occurrence of `a` in the list produces a registration
conflict log line. -/
theorem processAccounts_regErr_of_present (m : String) (o : String → Except String ℚ)
    (a : String) (v : ℚ) (hm : isValidMetricName m = true) (hok : o a = .ok v) :
    ∀ (l : List String) (reg : List Sample),
      (∃ t ∈ reg, t.name = m ∧ t.account = a) →
      l.count a ≤ ((processAccounts m o l reg).2).countP Event.isRegisterError
  | [], _, _ => by simp
  | b :: rest, reg, hpres => by
    by_cases hb : b = a
    · subst hb
      have hc : reg.any (sameIdentity (mkSample m b v)) = true := by
        obtain ⟨t, ht, h1, h2⟩ := hpres
        exact List.any_eq_true.mpr ⟨t, ht, by simp [sameIdentity, mkSample, h1, h2]⟩
      have hreg := @registerSample_conflict reg (mkSample m b v) hm hc
      simp only [processAccounts, hok, hreg]
      have ih := processAccounts_regErr_of_present m o b v hm hok rest reg hpres
      simp [List.countP_cons, Event.isRegisterError, List.count_cons_self]
      omega
    · cases h : o b with
      | error e =>
        simp only [processAccounts, h]
        have ih := processAccounts_regErr_of_present m o a v hm hok rest reg hpres
        rw [List.count_cons_of_ne (Ne.symm hb)]
        simp [List.countP_cons, Event.isRegisterError]
        omega
      | ok w =>
        cases h2 : registerSample reg (mkSample m b w) with
        | error e =>
          simp only [processAccounts, h, h2]
          have ih := processAccounts_regErr_of_present m o a v hm hok rest reg hpres
          rw [List.count_cons_of_ne (Ne.symm hb)]
          simp [List.countP_cons, Event.isRegisterError]
          omega
        | ok reg' =>
          simp only [processAccounts, h, h2]
          have hpres' : ∃ t ∈ reg', t.name = m ∧ t.account = a := by
            obtain ⟨t, ht, h1, h3⟩ := hpres
            exact ⟨t, by rw [registerSample_ok_eq h2]; exact List.mem_append_left _ ht, h1, h3⟩
          have ih := processAccounts_regErr_of_present m o a v hm hok rest reg' hpres'
          rw [List.count_cons_of_ne (Ne.symm hb)]
          simp [List.countP_cons, Event.isRegisterError]
          omega

/-- A duplicated account name whose query succeeds produces at least one
registration-conflict log line in the tick. -/
theorem processAccounts_regErr_of_dup (m : String) (o : String → Except String ℚ)
    (a : String) (v : ℚ) (hm : isValidMetricName m = true) (hok : o a = .ok v) :
    ∀ (l : List String) (reg : List Sample), 2 ≤ l.count a →
      1 ≤ ((processAccounts m o l reg).2).countP Event.isRegisterError
  | [], _, hcnt => by simp at hcnt
  | b :: rest, reg, hcnt => by
    by_cases hb : b = a
    · subst hb
      cases h2 : registerSample reg (mkSample m b v) with
      | error e =>
        simp only [processAccounts, hok, h2]
        simp only [List.countP_cons, isRegisterError_queryEv, isRegisterError_logQueryError, isRegisterError_logRegisterError, Bool.false_eq_true, if_false, if_true]
        omega
      | ok reg' =>
        simp only [processAccounts, hok, h2]
        have hpres' : ∃ t ∈ reg', t.name = m ∧ t.account = b :=
          ⟨mkSample m b v,
            by rw [registerSample_ok_eq h2]; exact List.mem_append_right _ (List.mem_singleton_self _),
            rfl, rfl⟩
        have hrest : 1 ≤ rest.count b := by
          rw [List.count_cons_self] at hcnt
          omega
        have := processAccounts_regErr_of_present m o b v hm hok rest reg' hpres'
        simp only [List.countP_cons, isRegisterError_queryEv, isRegisterError_logQueryError, isRegisterError_logRegisterError, Bool.false_eq_true, if_false, if_true]
        omega
    · have hcnt' : 2 ≤ rest.count a := by
        rwa [List.count_cons_of_ne (Ne.symm hb)] at hcnt
      cases h : o b with
      | error e =>
        simp only [processAccounts, h]
        have := processAccounts_regErr_of_dup m o a v hm hok rest reg hcnt'
        simp only [List.countP_cons, isRegisterError_queryEv, isRegisterError_logQueryError, isRegisterError_logRegisterError, Bool.false_eq_true, if_false, if_true]
        omega
      | ok w =>
        cases h2 : registerSample reg (mkSample m b w) with
        | error e =>
          simp only [processAccounts, h, h2]
          have := processAccounts_regErr_of_dup m o a v hm hok rest reg hcnt'
          simp only [List.countP_cons, isRegisterError_queryEv, isRegisterError_logQueryError, isRegisterError_logRegisterError, Bool.false_eq_true, if_false, if_true]
          omega
        | ok reg' =>
          simp only [processAccounts, h, h2]
          have := processAccounts_regErr_of_dup m o a v hm hok rest reg' hcnt'
          simp only [List.countP_cons, isRegisterError_queryEv, isRegisterError_logQueryError, isRegisterError_logRegisterError, Bool.false_eq_true, if_false, if_true]
          omega

/-- Every tick performs exactly one push, whatever the query outcomes. -/
theorem runTick_one_push (cfg : Config) (accounts : List String) (inp : TickInput) :
    (runTick cfg accounts inp).countP Event.isPush = 1 := by
  unfold runTick
  rw [List.countP_append, List.countP_append]
  have h0 : (processAccounts cfg.metricsName inp.oracle accounts []).2.countP Event.isPush = 0 :=
    List.countP_eq_zero.mpr (fun e he => by
      rw [processAccounts_no_push cfg.metricsName inp.oracle accounts [] e he]
      simp)
  rw [h0]
  cases inp.pushErr <;> simp [Event.isPush, List.countP_cons]

/-- The tick pushes its registry contents to the configured gateway under
the configured job and instance grouping. -/
theorem runTick_pushEv_mem (cfg : Config) (accounts : List String) (inp : TickInput) :
    Event.pushEv cfg.pushgateway cfg.job cfg.instanceLabel (tickBatch cfg accounts inp) ∈
      runTick cfg accounts inp := by
  unfold runTick
  exact List.mem_append_left _ (List.mem_append_right _ (List.mem_singleton_self _))

/-- A push failure is logged at the end of the tick. -/
theorem runTick_logPushError (cfg : Config) (accounts : List String) (inp : TickInput)
    (e : String) (h : inp.pushErr = some e) :
    Event.logPushError e ∈ runTick cfg accounts inp := by
  unfold runTick
  rw [h]
  exact List.mem_append_right _ (List.mem_singleton_self _)

/-- Each tick queries exactly the configured accounts, in order. -/
theorem runTick_queryEvents (cfg : Config) (accounts : List String) (inp : TickInput) :
    queryEvents (runTick cfg accounts inp) = accounts := by
  unfold runTick
  rw [queryEvents_append, queryEvents_append,
    processAccounts_queryEvents cfg.metricsName inp.oracle accounts []]
  cases inp.pushErr <;> simp [queryEvents]

/-- A failing query of a listed account is logged inside the tick. -/
theorem runTick_logQueryError (cfg : Config) (accounts : List String) (inp : TickInput)
    (acc e : String) (hmem : acc ∈ accounts) (he : inp.oracle acc = .error e) :
    Event.logQueryError acc e ∈ runTick cfg accounts inp := by
  unfold runTick
  exact List.mem_append_left _ (List.mem_append_left _
    (processAccounts_logQueryError cfg.metricsName inp.oracle acc e he accounts [] hmem))

/-- A duplicated account name with a successful query yields at least one
registration-conflict log line in the tick. -/
theorem runTick_regErr_of_dup (cfg : Config) (accounts : List String) (inp : TickInput)
    (a : String) (v : ℚ) (hm : isValidMetricName cfg.metricsName = true)
    (hok : inp.oracle a = .ok v) (hcnt : 2 ≤ accounts.count a) :
    1 ≤ (runTick cfg accounts inp).countP Event.isRegisterError := by
  unfold runTick
  rw [List.countP_append, List.countP_append]
  have := processAccounts_regErr_of_dup cfg.metricsName inp.oracle a v hm hok accounts [] hcnt
  omega

/-- Every sample in a tick's pushed batch stems from a successful query of a
listed account, carries that query's value, and the configured name. -/
theorem tickBatch_origin (cfg : Config) (accounts : List String) (inp : TickInput)
    (s : Sample) (hs : s ∈ tickBatch cfg accounts inp) :
    s.account ∈ accounts ∧ inp.oracle s.account = .ok s.value ∧ s.name = cfg.metricsName := by
  rcases processAccounts_origin cfg.metricsName inp.oracle accounts [] s hs with h | h
  · exact absurd h (List.not_mem_nil s)
  · exact h

/-- The pushed batch never repeats an `account` label. -/
theorem tickBatch_nodup (cfg : Config) (accounts : List String) (inp : TickInput) :
    ((tickBatch cfg accounts inp).map Sample.account).Nodup :=
  (processAccounts_nodup cfg.metricsName inp.oracle accounts []
    (fun t ht => absurd ht (List.not_mem_nil t)) List.nodup_nil).2

/-- With a valid metric name, a listed account with a successful query has a
sample in the pushed batch. -/
theorem tickBatch_exists (cfg : Config) (accounts : List String) (inp : TickInput)
    (acc : String) (v : ℚ) (hm : isValidMetricName cfg.metricsName = true)
    (hmem : acc ∈ accounts) (hok : inp.oracle acc = .ok v) :
    ∃ t ∈ tickBatch cfg accounts inp, t.name = cfg.metricsName ∧ t.account = acc :=
  processAccounts_exists cfg.metricsName inp.oracle acc hm accounts []
    (Or.inl ⟨hmem, v, hok⟩)

/-- When every configured account fails its query, the batch is empty. -/
theorem tickBatch_empty_of_all_error (cfg : Config) (accounts : List String) (inp : TickInput)
    (h : ∀ acc ∈ accounts, ∃ e, inp.oracle acc = .error e) :
    tickBatch cfg accounts inp = [] := by
  refine List.eq_nil_iff_forall_not_mem.mpr (fun s hs => ?_)
  obtain ⟨hmem, hok, _⟩ := tickBatch_origin cfg accounts inp s hs
  obtain ⟨e, he⟩ := h s.account hmem
  rw [hok] at he
  exact absurd he (by simp)

/-- The loop never stops: there is a trace for every tick index. -/
theorem runLoop_length (st : LoopState) (inputs : Nat → TickInput) :
    ∀ n, (runLoop st inputs n).length = n
  | 0 => rfl
  | n + 1 => by simp [runLoop, runLoop_length st inputs n]

/-- Tick `i` of the loop is `runTick` on the unchanged configuration and
account list, driven only by tick `i`'s external inputs. -/
theorem runLoop_getElem (st : LoopState) (inputs : Nat → TickInput) :
    ∀ n i, i < n → (runLoop st inputs n)[i]? = some (runTick st.cfg st.accounts (inputs i))
  | 0, i, hi => absurd hi (Nat.not_lt_zero i)
  | n + 1, i, hi => by
    unfold runLoop
    rw [List.getElem?_append, runLoop_length st inputs n]
    by_cases h : i < n
    · rw [if_pos h]
      exact runLoop_getElem st inputs n i h
    · have hin : i = n := by omega
      subst hin
      rw [if_neg h]
      simp

/-! ### Claims -/

/-- Claim C1: every tick of the loop performs exactly one push to the
gateway, independent of how many configured accounts succeeded their query;
when zero accounts succeed the tick still pushes an empty collection. -/
theorem claim_C1 (cfg : Config) (accounts : List String) (inp : TickInput) :
    (runTick cfg accounts inp).countP Event.isPush = 1 ∧
    ((∀ acc ∈ accounts, ∃ e, inp.oracle acc = .error e) →
      Event.pushEv cfg.pushgateway cfg.job cfg.instanceLabel [] ∈ runTick cfg accounts inp) := by
  refine ⟨runTick_one_push cfg accounts inp, fun h => ?_⟩
  have hb := tickBatch_empty_of_all_error cfg accounts inp h
  have hm := runTick_pushEv_mem cfg accounts inp
  rwa [hb] at hm

theorem claim_C1_witness :
    (runTick
      { account := "a", interval := 30, pushgateway := "http://localhost:9091", job := "j",
        metricsName := "daily_reward", instanceLabel := "i", dsn := "host=db" }
      ["a"] { oracle := fun _ => .error "connection refused", pushErr := none }).countP
        Event.isPush = 1 ∧
    Event.pushEv "http://localhost:9091" "j" "i" [] ∈
      runTick
        { account := "a", interval := 30, pushgateway := "http://localhost:9091", job := "j",
          metricsName := "daily_reward", instanceLabel := "i", dsn := "host=db" }
        ["a"] { oracle := fun _ => .error "connection refused", pushErr := none } := by
  have h := claim_C1
    { account := "a", interval := 30, pushgateway := "http://localhost:9091", job := "j",
      metricsName := "daily_reward", instanceLabel := "i", dsn := "host=db" }
    ["a"] { oracle := fun _ => .error "connection refused", pushErr := none }
  exact ⟨h.1, h.2 (fun acc _ => ⟨"connection refused", rfl⟩)⟩

/-- Claim C2: for an account whose query returns `v` in a tick, every gauge
published for it in that tick's batch carries the label `account=<name>`,
the configured metric name, and the value exactly `v`; moreover (for a valid
metric name) such a gauge is indeed in the pushed batch. -/
theorem claim_C2 (cfg : Config) (accounts : List String) (inp : TickInput)
    (acc : String) (v : ℚ) (hmem : acc ∈ accounts) (hok : inp.oracle acc = .ok v) :
    Event.pushEv cfg.pushgateway cfg.job cfg.instanceLabel (tickBatch cfg accounts inp) ∈
      runTick cfg accounts inp ∧
    (∀ s ∈ tickBatch cfg accounts inp, s.account = acc →
      s.value = v ∧ s.name = cfg.metricsName) ∧
    (isValidMetricName cfg.metricsName = true →
      ∃ s ∈ tickBatch cfg accounts inp,
        s.account = acc ∧ s.value = v ∧ s.name = cfg.metricsName) := by
  refine ⟨runTick_pushEv_mem cfg accounts inp, ?_, ?_⟩
  · intro s hs hsa
    obtain ⟨_, hok', hname⟩ := tickBatch_origin cfg accounts inp s hs
    rw [hsa, hok] at hok'
    exact ⟨(Except.ok.inj hok').symm, hname⟩
  · intro hm
    obtain ⟨t, ht, hname, hacc⟩ := tickBatch_exists cfg accounts inp acc v hm hmem hok
    refine ⟨t, ht, hacc, ?_, hname⟩
    obtain ⟨_, hok', _⟩ := tickBatch_origin cfg accounts inp t ht
    rw [hacc, hok] at hok'
    exact (Except.ok.inj hok').symm

theorem claim_C2_witness :
    ∃ s ∈ tickBatch
      { account := "alice", interval := 30, pushgateway := "http://localhost:9091", job := "j",
        metricsName := "daily_reward", instanceLabel := "i", dsn := "host=db" }
      ["alice"] { oracle := fun _ => .ok 5, pushErr := none },
      s.account = "alice" ∧ s.value = 5 ∧ s.name = "daily_reward" := by
  have h := claim_C2
    { account := "alice", interval := 30, pushgateway := "http://localhost:9091", job := "j",
      metricsName := "daily_reward", instanceLabel := "i", dsn := "host=db" }
    ["alice"] { oracle := fun _ => .ok 5, pushErr := none } "alice" 5
    (List.mem_singleton_self _) rfl
  exact h.2.2 (by decide)

/-- Claim C3: a tick's batch contains at most one sample per configured
account and only for accounts whose query succeeded (carrying their
values); a failing account contributes no gauge, and no account is queried
more than once per tick (each is queried exactly once, in order). -/
theorem claim_C3 (cfg : Config) (accounts : List String) (inp : TickInput) :
    ((tickBatch cfg accounts inp).map Sample.account).Nodup ∧
    (∀ s ∈ tickBatch cfg accounts inp,
      s.account ∈ accounts ∧ inp.oracle s.account = .ok s.value) ∧
    (∀ acc e, inp.oracle acc = .error e →
      ∀ s ∈ tickBatch cfg accounts inp, s.account ≠ acc) ∧
    queryEvents (runTick cfg accounts inp) = accounts := by
  refine ⟨tickBatch_nodup cfg accounts inp, ?_, ?_, runTick_queryEvents cfg accounts inp⟩
  · intro s hs
    obtain ⟨h1, h2, _⟩ := tickBatch_origin cfg accounts inp s hs
    exact ⟨h1, h2⟩
  · intro acc e he s hs hsa
    obtain ⟨_, hok, _⟩ := tickBatch_origin cfg accounts inp s hs
    rw [hsa, he] at hok
    exact absurd hok (by simp)

theorem claim_C3_witness :
    (∀ s ∈ tickBatch
      { account := "alice,bob", interval := 30, pushgateway := "http://localhost:9091",
        job := "j", metricsName := "daily_reward", instanceLabel := "i", dsn := "host=db" }
      ["alice", "bob"]
      { oracle := fun a => if a = "alice" then .ok 5 else .error "no conn", pushErr := none },
      s.account ≠ "bob") ∧
    queryEvents (runTick
      { account := "alice,bob", interval := 30, pushgateway := "http://localhost:9091",
        job := "j", metricsName := "daily_reward", instanceLabel := "i", dsn := "host=db" }
      ["alice", "bob"]
      { oracle := fun a => if a = "alice" then .ok 5 else .error "no conn", pushErr := none }) =
      ["alice", "bob"] := by
  have h := claim_C3
    { account := "alice,bob", interval := 30, pushgateway := "http://localhost:9091",
      job := "j", metricsName := "daily_reward", instanceLabel := "i", dsn := "host=db" }
    ["alice", "bob"]
    { oracle := fun a => if a = "alice" then .ok 5 else .error "no conn", pushErr := none }
  exact ⟨h.2.2.1 "bob" "no conn" (by simp), h.2.2.2⟩

/-- Claim C4 counterexample: with a non-empty account list, a successful
database open and ping, but `-interval=0`, the process still terminates
before entering the timer loop (the `time.NewTicker` panic), although
neither enumerated startup error — empty account configuration or failed
database connectivity check — occurred.  So termination before the loop is
not equivalent to those two startup errors. -/
theorem claim_C4_counterexample :
    (startup
      { account := some "acc1", interval := some 0, pushgateway := none, job := none,
        metrics := none, instanceLabel := none, dsn := some "host=db" }
      { openErr := none, pingErr := none }).entersLoop = false ∧
    (parseFlags
      { account := some "acc1", interval := some 0, pushgateway := none, job := none,
        metrics := none, instanceLabel := none, dsn := some "host=db" }).account ≠ "" ∧
    ({ openErr := none, pingErr := none } : Env).openErr = none ∧
    ({ openErr := none, pingErr := none } : Env).pingErr = none := by
  refine ⟨rfl, ?_, rfl, rfl⟩
  decide

/-- Claim C4 (amended): the process terminates before entering the timer
loop if and only if the account configuration is empty, the database open
fails, the initial ping fails, or the int64-wrapped ticker duration
`interval * 1e9` is non-positive.  The first three are fatal log-and-exit
errors; the last is a runtime panic at timer construction (it covers
`-interval=0` but also, through the wraparound, some large positive
intervals, while some large negative intervals wrap positive and enter the
loop).  Otherwise the process enters the loop with the comma-split account
list. -/
theorem claim_C4_amended (f : Flags) (env : Env) :
    ((startup f env).entersLoop = false ↔
      ((parseFlags f).account = "" ∨ env.openErr ≠ none ∨ env.pingErr ≠ none ∨
        tickerDuration (parseFlags f).interval ≤ 0)) ∧
    ((parseFlags f).account = "" ∨ env.openErr ≠ none ∨ env.pingErr ≠ none →
      (startup f env).isFatal = true) ∧
    ((parseFlags f).account ≠ "" → env.openErr = none → env.pingErr = none →
      tickerDuration (parseFlags f).interval ≤ 0 → (startup f env).isPanic = true) ∧
    ((startup f env).entersLoop = true →
      startup f env =
        .loop { cfg := parseFlags f, accounts := goSplit (parseFlags f).account ',' }) := by
  by_cases ha : (parseFlags f).account = ""
  · simp [startup, ha, StartupOutcome.entersLoop, StartupOutcome.isFatal, StartupOutcome.isPanic]
  · cases ho : env.openErr with
    | some e =>
      simp [startup, ha, ho, StartupOutcome.entersLoop, StartupOutcome.isFatal,
        StartupOutcome.isPanic]
    | none =>
      cases hp : env.pingErr with
      | some e =>
        simp [startup, ha, ho, hp, StartupOutcome.entersLoop, StartupOutcome.isFatal,
          StartupOutcome.isPanic]
      | none =>
        by_cases hi : tickerDuration (parseFlags f).interval ≤ 0
        · simp [startup, ha, ho, hp, hi, StartupOutcome.entersLoop, StartupOutcome.isFatal,
            StartupOutcome.isPanic]
        · simp [startup, ha, ho, hp, hi, StartupOutcome.entersLoop, StartupOutcome.isFatal,
            StartupOutcome.isPanic]

theorem claim_C4_amended_witness :
    (startup
      { account := some "acc1", interval := some (-3), pushgateway := none, job := none,
        metrics := none, instanceLabel := none, dsn := some "host=db" }
      { openErr := none, pingErr := none }).isPanic = true ∧
    (startup
      { account := none, interval := none, pushgateway := none, job := none,
        metrics := none, instanceLabel := none, dsn := some "host=db" }
      { openErr := none, pingErr := none }).isFatal = true := by
  constructor
  · exact (claim_C4_amended
      { account := some "acc1", interval := some (-3), pushgateway := none, job := none,
        metrics := none, instanceLabel := none, dsn := some "host=db" }
      { openErr := none, pingErr := none }).2.2.1 (by decide) rfl rfl (by decide)
  · exact (claim_C4_amended
      { account := none, interval := none, pushgateway := none, job := none,
        metrics := none, instanceLabel := none, dsn := some "host=db" }
      { openErr := none, pingErr := none }).2.1 (Or.inl rfl)

/-- Claim C5: every failure inside a tick — a per-account query failure, a
gauge registration conflict, or a push failure — is logged and the loop
continues: the loop produces a trace for every tick index, each tick runs
on the unchanged account list and depends only on that tick's inputs, each
account is queried exactly once per tick and the push is attempted exactly
once per tick. -/
theorem claim_C5 (st : LoopState) (inputs : Nat → TickInput) (n : Nat) :
    (runLoop st inputs n).length = n ∧
    (∀ i, i < n → (runLoop st inputs n)[i]? = some (runTick st.cfg st.accounts (inputs i))) ∧
    (∀ (inp : TickInput) (acc e : String), acc ∈ st.accounts → inp.oracle acc = .error e →
      Event.logQueryError acc e ∈ runTick st.cfg st.accounts inp) ∧
    (∀ (inp : TickInput) (e : String), inp.pushErr = some e →
      Event.logPushError e ∈ runTick st.cfg st.accounts inp) ∧
    (∀ (inp : TickInput) (a : String) (v : ℚ),
      isValidMetricName st.cfg.metricsName = true → inp.oracle a = .ok v →
      2 ≤ st.accounts.count a →
      1 ≤ (runTick st.cfg st.accounts inp).countP Event.isRegisterError) ∧
    (∀ inp : TickInput, queryEvents (runTick st.cfg st.accounts inp) = st.accounts ∧
      (runTick st.cfg st.accounts inp).countP Event.isPush = 1) :=
  ⟨runLoop_length st inputs n, runLoop_getElem st inputs n,
    fun inp acc e hmem he => runTick_logQueryError st.cfg st.accounts inp acc e hmem he,
    fun inp e h => runTick_logPushError st.cfg st.accounts inp e h,
    fun inp a v hm hok hcnt => runTick_regErr_of_dup st.cfg st.accounts inp a v hm hok hcnt,
    fun inp => ⟨runTick_queryEvents st.cfg st.accounts inp,
      runTick_one_push st.cfg st.accounts inp⟩⟩

theorem claim_C5_witness :
    (runLoop
      { cfg := { account := "a,b", interval := 30, pushgateway := "http://localhost:9091",
                 job := "j", metricsName := "daily_reward", instanceLabel := "i",
                 dsn := "host=db" },
        accounts := ["a", "b"] }
      (fun _ => { oracle := fun _ => .error "bad conn", pushErr := some "503" }) 3).length = 3 ∧
    Event.logPushError "503" ∈
      runTick
        { account := "a,b", interval := 30, pushgateway := "http://localhost:9091",
          job := "j", metricsName := "daily_reward", instanceLabel := "i", dsn := "host=db" }
        ["a", "b"] { oracle := fun _ => .error "bad conn", pushErr := some "503" } ∧
    Event.logQueryError "b" "bad conn" ∈
      runTick
        { account := "a,b", interval := 30, pushgateway := "http://localhost:9091",
          job := "j", metricsName := "daily_reward", instanceLabel := "i", dsn := "host=db" }
        ["a", "b"] { oracle := fun _ => .error "bad conn", pushErr := some "503" } := by
  have h := claim_C5
    { cfg := { account := "a,b", interval := 30, pushgateway := "http://localhost:9091",
               job := "j", metricsName := "daily_reward", instanceLabel := "i",
               dsn := "host=db" },
      accounts := ["a", "b"] }
    (fun _ => { oracle := fun _ => .error "bad conn", pushErr := some "503" }) 3
  exact ⟨h.1,
    h.2.2.2.1 { oracle := fun _ => .error "bad conn", pushErr := some "503" } "503" rfl,
    h.2.2.1 { oracle := fun _ => .error "bad conn", pushErr := some "503" } "b" "bad conn"
      (by simp) rfl⟩

/-- Claim C6: when the configured account list contains a name twice and its
query succeeds, a registration conflict is logged in that tick, the
duplicate gauge is dropped, and the push contains exactly one sample for
that name. -/
theorem claim_C6 (cfg : Config) (accounts : List String) (inp : TickInput)
    (a : String) (v : ℚ) (hm : isValidMetricName cfg.metricsName = true)
    (hok : inp.oracle a = .ok v) (hcnt : 2 ≤ accounts.count a) :
    1 ≤ (runTick cfg accounts inp).countP Event.isRegisterError ∧
    ((tickBatch cfg accounts inp).map Sample.account).count a = 1 := by
  refine ⟨runTick_regErr_of_dup cfg accounts inp a v hm hok hcnt, ?_⟩
  have hnd := tickBatch_nodup cfg accounts inp
  have hmem : a ∈ accounts := List.count_pos_iff.mp (by omega)
  obtain ⟨t, ht, _, hacc⟩ := tickBatch_exists cfg accounts inp a v hm hmem hok
  have hmem2 : a ∈ (tickBatch cfg accounts inp).map Sample.account :=
    List.mem_map.mpr ⟨t, ht, hacc⟩
  have h1 := List.nodup_iff_count_le_one.mp hnd a
  have h2 := List.count_pos_iff.mpr hmem2
  omega

theorem claim_C6_witness :
    1 ≤ (runTick
      { account := "x,x", interval := 30, pushgateway := "http://localhost:9091", job := "j",
        metricsName := "daily_reward", instanceLabel := "i", dsn := "host=db" }
      ["x", "x"] { oracle := fun _ => .ok 2, pushErr := none }).countP
        Event.isRegisterError ∧
    ((tickBatch
      { account := "x,x", interval := 30, pushgateway := "http://localhost:9091", job := "j",
        metricsName := "daily_reward", instanceLabel := "i", dsn := "host=db" }
      ["x", "x"] { oracle := fun _ => .ok 2, pushErr := none }).map Sample.account).count
        "x" = 1 :=
  claim_C6
    { account := "x,x", interval := 30, pushgateway := "http://localhost:9091", job := "j",
      metricsName := "daily_reward", instanceLabel := "i", dsn := "host=db" }
    ["x", "x"] { oracle := fun _ => .ok 2, pushErr := none } "x" 2 (by decide) rfl (by decide)

/-- Claim C7: an unspecified interval defaults to `30`, an unspecified
pushgateway defaults to `http://localhost:9091`, every other string
parameter defaults to the empty string, and any provided values are
accepted verbatim by the parser, with no validation. -/
theorem claim_C7 :
    parseFlags
        { account := none, interval := none, pushgateway := none, job := none,
          metrics := none, instanceLabel := none, dsn := none } =
      { account := "", interval := 30, pushgateway := "http://localhost:9091", job := "",
        metricsName := "", instanceLabel := "", dsn := "" } ∧
    ∀ (a : String) (i : Int) (p j m inst d : String),
      parseFlags
          { account := some a, interval := some i, pushgateway := some p, job := some j,
            metrics := some m, instanceLabel := some inst, dsn := some d } =
        { account := a, interval := i, pushgateway := p, job := j, metricsName := m,
          instanceLabel := inst, dsn := d } :=
  ⟨rfl, fun _ _ _ _ _ _ _ => rfl⟩

/-- Claim C8: `queryDailyReward` propagates any query-execution error;
otherwise it returns the sum of the rewards of the matching rows scaled by
`1e-6`, where a row matches exactly when it belongs to project `ALEO`, to a
`miner_account` with the queried name, and to today's calendar day in the
Asia/Shanghai time zone; zero matching rows give `0` with no error. -/
theorem claim_C8 (db : DB) (account : String) :
    (∀ e, db.queryErr = some e → queryDailyReward db account = .error e) ∧
    (db.queryErr = none →
      queryDailyReward db account =
        .ok (((db.epochDistributor.filter (rowMatches db account)).map EpochRow.reward).sum
          / 1000000)) ∧
    (∀ r : EpochRow, rowMatches db account r = true ↔
      (r.project = "ALEO" ∧
        (∃ ma ∈ db.minerAccount, ma.name = account ∧ ma.id = r.minerAccountId) ∧
        shanghaiDate r.epochTime = shanghaiDate db.now)) ∧
    (db.queryErr = none → db.epochDistributor.filter (rowMatches db account) = [] →
      queryDailyReward db account = .ok 0) := by
  refine ⟨?_, ?_, ?_, ?_⟩
  · intro e he
    unfold queryDailyReward
    rw [he]
  · intro hn
    unfold queryDailyReward
    rw [hn]
    cases hr : db.epochDistributor.filter (rowMatches db account) with
    | nil => simp [hr, sqlSum]
    | cons r rs => simp [hr, sqlSum]
  · intro r
    simp [rowMatches, List.any_eq_true, Bool.and_eq_true, beq_iff_eq, and_assoc]
  · intro hn hr
    unfold queryDailyReward
    rw [hn, hr]
    simp [sqlSum]

theorem claim_C8_witness :
    queryDailyReward
        { minerAccount := [{ id := 1, name := "alice" }],
          epochDistributor := [{ project := "ALEO", minerAccountId := 1,
                                 epochTime := 1760140800, reward := 5000000 }],
          now := 1760151600, queryErr := none } "alice" =
      .ok (((({ minerAccount := [{ id := 1, name := "alice" }],
                epochDistributor := [{ project := "ALEO", minerAccountId := 1,
                                       epochTime := 1760140800, reward := 5000000 }],
                now := 1760151600, queryErr := none } : DB).epochDistributor.filter
            (rowMatches
              { minerAccount := [{ id := 1, name := "alice" }],
                epochDistributor := [{ project := "ALEO", minerAccountId := 1,
                                       epochTime := 1760140800, reward := 5000000 }],
                now := 1760151600, queryErr := none } "alice")).map EpochRow.reward).sum
        / 1000000) ∧
    queryDailyReward
        { minerAccount := [], epochDistributor := [], now := 0,
          queryErr := some "connection reset" } "alice" =
      .error "connection reset" :=
  ⟨(claim_C8
      { minerAccount := [{ id := 1, name := "alice" }],
        epochDistributor := [{ project := "ALEO", minerAccountId := 1,
                               epochTime := 1760140800, reward := 5000000 }],
        now := 1760151600, queryErr := none } "alice").2.1 rfl,
   (claim_C8
      { minerAccount := [], epochDistributor := [], now := 0,
        queryErr := some "connection reset" } "alice").1 "connection reset" rfl⟩

/-- Within the `int64` range the 64-bit wrap is the identity. -/
theorem wrap64_eq_self (x : Int) (h1 : -9223372036854775808 ≤ x)
    (h2 : x < 9223372036854775808) : wrap64 x = x := by
  unfold wrap64
  rw [Int.emod_eq_of_lt (by omega) (by omega)]
  omega

/-- Claim C9 counterexample: `-interval=-10000000000` is negative, the
account string is non-empty and open and ping succeed, yet the program
does not panic: the `int64` product `-1e10 * 1e9` wraps to
`+8446744073709551616` nanoseconds, `time.NewTicker` accepts it, and the
loop is entered.  So "zero or negative interval implies panic" is false of
the program. -/
theorem claim_C9_counterexample :
    (parseFlags
      { account := some "acc1", interval := some (-10000000000), pushgateway := none,
        job := none, metrics := none, instanceLabel := none,
        dsn := some "host=db" }).interval ≤ 0 ∧
    tickerDuration (-10000000000) = 8446744073709551616 ∧
    (startup
      { account := some "acc1", interval := some (-10000000000), pushgateway := none,
        job := none, metrics := none, instanceLabel := none, dsn := some "host=db" }
      { openErr := none, pingErr := none }).isPanic = false ∧
    (startup
      { account := some "acc1", interval := some (-10000000000), pushgateway := none,
        job := none, metrics := none, instanceLabel := none, dsn := some "host=db" }
      { openErr := none, pingErr := none }).entersLoop = true :=
  ⟨by decide, by decide, rfl, rfl⟩

/-- Claim C9 (amended): with a non-empty account string and a successful
database open and ping, the program panics at timer construction exactly
when the int64-wrapped duration `interval * 1e9` is non-positive; in
particular every interval in `[-9223372036, 0]` panics (the product does
not wrap there), while a more negative interval can wrap positive and
enter the loop instead. -/
theorem claim_C9_amended (f : Flags) (env : Env)
    (ha : (parseFlags f).account ≠ "") (ho : env.openErr = none)
    (hp : env.pingErr = none) :
    ((startup f env).isPanic = true ↔ tickerDuration (parseFlags f).interval ≤ 0) ∧
    (-9223372036 ≤ (parseFlags f).interval → (parseFlags f).interval ≤ 0 →
      startup f env = .panicked "non-positive interval for NewTicker") := by
  constructor
  · by_cases hi : tickerDuration (parseFlags f).interval ≤ 0
    · simp [startup, ha, ho, hp, hi, StartupOutcome.isPanic]
    · simp [startup, ha, ho, hp, hi, StartupOutcome.isPanic]
  · intro hlow hhigh
    have htd : tickerDuration (parseFlags f).interval ≤ 0 := by
      unfold tickerDuration
      rw [wrap64_eq_self _ (by omega) (by omega)]
      omega
    simp [startup, ha, ho, hp, htd]

theorem claim_C9_amended_witness :
    startup
        { account := some "acc1", interval := some (-5), pushgateway := none, job := none,
          metrics := none, instanceLabel := none, dsn := none }
        { openErr := none, pingErr := none } =
      .panicked "non-positive interval for NewTicker" :=
  (claim_C9_amended
    { account := some "acc1", interval := some (-5), pushgateway := none, job := none,
      metrics := none, instanceLabel := none, dsn := none }
    { openErr := none, pingErr := none } (by decide) rfl rfl).2 (by decide) (by decide)

/-- Claim C10: the account string is split on every comma with no trimming,
no deduplication and no removal of empty entries: the input `","` passes
the emptiness check and enters the loop with two empty-string accounts,
each of which is queried on every tick; the input `"a, a,,a"` keeps
whitespace, empty entries and duplicates. -/
theorem claim_C10 :
    startup
        { account := some ",", interval := none, pushgateway := none, job := none,
          metrics := none, instanceLabel := none, dsn := some "host=db" }
        { openErr := none, pingErr := none } =
      StartupOutcome.loop
        { cfg := { account := ",", interval := 30, pushgateway := "http://localhost:9091",
                   job := "", metricsName := "", instanceLabel := "", dsn := "host=db" },
          accounts := ["", ""] } ∧
    queryEvents (runTick
        { account := ",", interval := 30, pushgateway := "http://localhost:9091",
          job := "", metricsName := "", instanceLabel := "", dsn := "host=db" }
        ["", ""] { oracle := fun _ => .error "db down", pushErr := none }) = ["", ""] ∧
    (runLoop
        { cfg := { account := ",", interval := 30, pushgateway := "http://localhost:9091",
                   job := "", metricsName := "", instanceLabel := "", dsn := "host=db" },
          accounts := ["", ""] }
        (fun _ => { oracle := fun _ => .error "db down", pushErr := none }) 2).map
      queryEvents = [["", ""], ["", ""]] ∧
    goSplit "a, a,,a" ',' = ["a", " a", "", "a"] :=
  ⟨rfl, rfl, rfl, rfl⟩

end RewardMonitor
